import Mathlib

/-!
Shallow embedding of the misinformation-checker backend
(src/backend/index.js): credential store, JWT-style token issue/verify,
authentication middleware, search-history store and the analyze pipeline.

Modelling conventions:
* MongoDB collections become Lists held in an explicit `DB` state record;
  `findOne` becomes `List.find?` over that list, `save` appends.
* Wall-clock time (`Date.now`, JWT `exp`) is a `Nat` passed explicitly to
  each request handler.
* bcrypt is modelled by an explicit `hashFn : String -> String` parameter:
  `bcrypt.hash p` is `hashFn p` and `bcrypt.compare p h` is `hashFn p == h`
  (a deterministic idealisation of the salted hash plus its comparator).
* A JWT is a record carrying its claims, the secret it was signed with and
  its expiry instant; `verify` checks the secret and the expiry, exactly
  the two failure modes of `jwt.verify` used by the code.
* External fallible collaborators (the generative-AI provider, a Mongo
  save) enter a handler as `Except` values: the value the awaited call
  produced at this request, `.error` meaning the call threw and control
  jumps to the catch block.
-/

namespace Backend

/-- Default JWT secret from src/backend/index.js line 44. -/
def jwtSecret : String := "your-secret-key"

/-- Seconds in the string "7d" passed to jwt.sign for session tokens. -/
def sevenDays : Nat := 604800

/-- Seconds in the string "1h" passed to jwt.sign for reset tokens. -/
def oneHour : Nat := 3600

/-- A stored User document (userSchema, lines 24-29): the password field
holds whatever string the signup handler put there. -/
structure UserRec where
  id : Nat
  username : String
  email : String
  password : String
  createdAt : Nat
deriving DecidableEq, Repr

/-- A stored SearchHistory document (searchHistorySchema, lines 34-39).
The text is kept as a character list so truncation is by characters. -/
structure HistoryEntry where
  userId : Nat
  text : List Char
  analysis : String
  createdAt : Nat
deriving DecidableEq, Repr

/-- The database state: both collections plus an id counter standing in
for fresh ObjectId generation. -/
structure DB where
  users : List UserRec
  history : List HistoryEntry
  nextId : Nat
deriving DecidableEq, Repr

/-- JWT payload: session tokens carry userId and username (lines 102-106),
reset tokens carry only userId (lines 219-223), hence the Option. -/
structure Claims where
  userId : Nat
  username : Option String
deriving DecidableEq, Repr

/-- A signed token: claims, the signing secret and the expiry instant. -/
structure Token where
  claims : Claims
  secret : String
  expiresAt : Nat
deriving DecidableEq, Repr

/-- jwt.sign claims secret (expiresIn ttl) at time now. -/
def sign (c : Claims) (secret : String) (ttl : Nat) (now : Nat) : Token :=
  { claims := c, secret := secret, expiresAt := now + ttl }

inductive VerifyErr
  | invalid
  | expired
deriving DecidableEq, Repr

/-- jwt.verify: fails when the token was signed with a different secret or
when the current time is at or past the expiry; otherwise yields claims. -/
def verify (t : Token) (secret : String) (now : Nat) : Except VerifyErr Claims :=
  if t.secret = secret then
    if now < t.expiresAt then .ok t.claims
    else .error .expired
  else .error .invalid

/-- The Authorization header as the middleware (lines 58-64) sees it:
absent, present but with nothing after the first space (split(1) is
undefined, a falsy value), or carrying a bearer token. -/
inductive AuthHeader
  | absent
  | malformed
  | bearer (t : Token)
deriving DecidableEq, Repr

inductive AuthCheck
  | missing
  | invalid
  | ok (c : Claims)
deriving DecidableEq, Repr

/-- authenticateToken middleware (lines 58-73): 401 when no token can be
extracted from the header, 403 when jwt.verify fails, else the decoded
claims become req.user. -/
def authenticateToken (h : AuthHeader) (now : Nat) : AuthCheck :=
  match h with
  | .absent => .missing
  | .malformed => .missing
  | .bearer t =>
    match verify t jwtSecret now with
    | .error _ => .invalid
    | .ok c => .ok c

/-- Outcome of a route guarded by authenticateToken. -/
inductive RouteResult (R : Type)
  | unauthorized
  | forbidden
  | handled (r : R)
deriving DecidableEq

/-- HTTP status of a guarded route outcome; the inner function gives the
status the handler itself chose. -/
def RouteResult.status {R : Type} (inner : R → Nat) : RouteResult R → Nat
  | .unauthorized => 401
  | .forbidden => 403
  | .handled r => inner r

/-- Composition app.VERB(path, authenticateToken, handler): the handler
runs only when the middleware called next with req.user set. -/
def protectedRoute {R : Type} (handler : Claims → DB → DB × R)
    (h : AuthHeader) (now : Nat) (db : DB) : DB × RouteResult R :=
  match authenticateToken h now with
  | .missing => (db, .unauthorized)
  | .invalid => (db, .forbidden)
  | .ok c =>
    let p := handler c db
    (p.1, .handled p.2)

/-- User.findOne with a disjunctive filter on email and username, the
duplicate check of the signup handler (line 81). -/
def findByEmailOrUsername (db : DB) (email username : String) : Option UserRec :=
  db.users.find? (fun u => u.email == email || u.username == username)

/-- User.findOne on username-or-email, the login lookup (lines 130-132). -/
def findByUsernameOrEmail (db : DB) (identifier : String) : Option UserRec :=
  db.users.find? (fun u => u.username == identifier || u.email == identifier)

/-- User.findOne on the username and email pair (line 210). -/
def findByUsernameAndEmail (db : DB) (username email : String) : Option UserRec :=
  db.users.find? (fun u => u.username == username && u.email == email)

/-- User.findOne on email alone (line 178). -/
def findByEmail (db : DB) (email : String) : Option UserRec :=
  db.users.find? (fun u => u.email == email)

/-- The user-and-token payload both signup and login respond with
(lines 108-118 and 157-167): message, the public user fields, the token.
No password field is present. -/
structure AuthSuccess where
  message : String
  userId : Nat
  username : String
  email : String
  createdAt : Nat
  token : Token
deriving DecidableEq, Repr

inductive SignupResult
  | conflict (message : String)
  | ok (resp : AuthSuccess)
deriving DecidableEq, Repr

def SignupResult.status : SignupResult → Nat
  | .conflict _ => 400
  | .ok _ => 200

/-- POST /auth/signup (lines 76-123): reject when a user with the same
email or username exists, otherwise store the bcrypt hash, save the user
and respond with the public fields plus a 7-day session token. -/
def signup (hashFn : String → String) (now : Nat) (db : DB)
    (username email password : String) : DB × SignupResult :=
  match findByEmailOrUsername db email username with
  | some _ => (db, .conflict "User with this email or username already exists")
  | none =>
    let hashed := hashFn password
    let u : UserRec :=
      { id := db.nextId, username := username, email := email,
        password := hashed, createdAt := now }
    let db' : DB := { db with users := db.users ++ [u], nextId := db.nextId + 1 }
    let token := sign { userId := u.id, username := some u.username } jwtSecret sevenDays now
    (db', .ok { message := "User created successfully", userId := u.id,
                username := u.username, email := u.email,
                createdAt := u.createdAt, token := token })

inductive LoginResult
  | invalid (message : String)
  | ok (resp : AuthSuccess)
deriving DecidableEq, Repr

def LoginResult.status : LoginResult → Nat
  | .invalid _ => 400
  | .ok _ => 200

/-- POST /auth/login (lines 125-172): look up by username-or-email, then
bcrypt.compare the submitted password against the stored hash; both a
missing user and a failed compare give the same 400 message. -/
def login (hashFn : String → String) (now : Nat) (db : DB)
    (identifier password : String) : LoginResult :=
  match findByUsernameOrEmail db identifier with
  | none => .invalid "Invalid username or password"
  | some u =>
    if hashFn password == u.password then
      .ok { message := "Login successful", userId := u.id,
            username := u.username, email := u.email,
            createdAt := u.createdAt,
            token := sign { userId := u.id, username := some u.username } jwtSecret sevenDays now }
    else .invalid "Invalid username or password"

inductive ForgotUsernameResult
  | notFound (message : String)
  | ok (message : String)
deriving DecidableEq, Repr

/-- POST /auth/forgot-username (lines 174-204): the username travels in
the email, the response body is only a message. -/
def forgotUsername (db : DB) (email : String) : ForgotUsernameResult :=
  match findByEmail db email with
  | none => .notFound "No account found with this email"
  | some _ => .ok "Username sent to your email"

inductive ForgotPasswordResult
  | notFound (message : String)
  | ok (message : String) (resetToken : Token)
deriving DecidableEq, Repr

/-- POST /auth/forgot-password (lines 206-243): on a match, sign a 1-hour
reset token over the user id alone; the token is embedded in the emailed
link (carried by the ok constructor), the response body is a message. -/
def forgotPassword (now : Nat) (db : DB) (username email : String) : ForgotPasswordResult :=
  match findByUsernameAndEmail db username email with
  | none => .notFound "No account found with this username and email combination"
  | some u =>
    .ok "Password reset instructions sent to your email"
      (sign { userId := u.id, username := none } jwtSecret oneHour now)

/-- The sort key of .sort(createdAt: -1): a comes before b when its
creation time is at least that of b. -/
def byNewest (a b : HistoryEntry) : Prop := b.createdAt ≤ a.createdAt

instance : DecidableRel byNewest := fun a b => Nat.decLe b.createdAt a.createdAt

instance : IsTotal HistoryEntry byNewest :=
  ⟨fun a b => Nat.le_total b.createdAt a.createdAt⟩

instance : IsTrans HistoryEntry byNewest :=
  ⟨fun _ _ _ hab hbc => Nat.le_trans hbc hab⟩

/-- SearchHistory.find(userId).sort(createdAt: -1).limit(50)
(lines 248-250). -/
def listRecent (db : DB) (uid : Nat) : List HistoryEntry :=
  ((db.history.filter (fun e => e.userId == uid)).insertionSort byNewest).take 50

structure HistoryResp where
  history : List HistoryEntry
deriving DecidableEq, Repr

/-- GET /api/search-history handler body (lines 246-260). -/
def getHistoryHandler (c : Claims) (db : DB) : DB × HistoryResp :=
  (db, { history := listRecent db c.userId })

/-- SearchHistory.deleteMany(userId) (line 264): removes every entry of
that user; the driver result carries the number of deleted documents. -/
def deleteMany (db : DB) (uid : Nat) : DB × Nat :=
  ({ db with history := db.history.filter (fun e => !(e.userId == uid)) },
   (db.history.filter (fun e => e.userId == uid)).length)

structure ClearResp where
  message : String
deriving DecidableEq, Repr

/-- DELETE /api/search-history handler body (lines 262-270): calls
deleteMany and responds with a fixed message, discarding the count. -/
def clearHistoryHandler (c : Claims) (db : DB) : DB × ClearResp :=
  ((deleteMany db c.userId).1, { message := "Search history cleared" })

inductive AnalyzeResult
  | ok (analysis : String)
  | serverError (error : String)
deriving DecidableEq, Repr

def AnalyzeResult.status : AnalyzeResult → Nat
  | .ok _ => 200
  | .serverError _ => 500

/-- POST /analyze handler body (lines 273-308): providerResult is what
awaiting the generation call produced, saveResult what awaiting the
history save produced; any .error lands in the catch block, which
responds 500 with a generic message. On success the entry stores
text.substring(0, 500) and the response carries the provider output
unmodified. -/
def analyze (providerResult : Except Unit String) (saveResult : Except Unit Unit)
    (c : Claims) (db : DB) (now : Nat) (text : List Char) : DB × AnalyzeResult :=
  match providerResult with
  | .error _ => (db, .serverError "Failed to analyze text")
  | .ok analysis =>
    match saveResult with
    | .error _ => (db, .serverError "Failed to analyze text")
    | .ok _ =>
      let entry : HistoryEntry :=
        { userId := c.userId, text := text.take 500,
          analysis := analysis, createdAt := now }
      ({ db with history := db.history ++ [entry] }, .ok analysis)

/-- The three authenticated routes, as middleware-guarded handlers. -/
def getHistoryRoute (h : AuthHeader) (now : Nat) (db : DB) : DB × RouteResult HistoryResp :=
  protectedRoute getHistoryHandler h now db

def clearHistoryRoute (h : AuthHeader) (now : Nat) (db : DB) : DB × RouteResult ClearResp :=
  protectedRoute clearHistoryHandler h now db

def analyzeRoute (providerResult : Except Unit String) (saveResult : Except Unit Unit)
    (text : List Char) (h : AuthHeader) (now : Nat) (db : DB) : DB × RouteResult AnalyzeResult :=
  protectedRoute (fun c d => analyze providerResult saveResult c d now text) h now db

/-! Response-body strings. Each function collects every string value
serialised into the JSON body of a response, the token claims included
(a real JWT string encodes its payload). Used to state that passwords
never appear in any response. -/

def claimsStrings (c : Claims) : List String :=
  match c.username with
  | some s => [s]
  | none => []

def authSuccessStrings (r : AuthSuccess) : List String :=
  r.message :: r.username :: r.email :: claimsStrings r.token.claims

def signupRespStrings : SignupResult → List String
  | .conflict m => [m]
  | .ok r => authSuccessStrings r

def loginRespStrings : LoginResult → List String
  | .invalid m => [m]
  | .ok r => authSuccessStrings r

def forgotUsernameRespStrings : ForgotUsernameResult → List String
  | .notFound m => [m]
  | .ok m => [m]

/-- The reset token travels in the email, not in the response body. -/
def forgotPasswordRespStrings : ForgotPasswordResult → List String
  | .notFound m => [m]
  | .ok m _ => [m]

def historyRespStrings (r : HistoryResp) : List String :=
  r.history.flatMap (fun e => [String.mk e.text, e.analysis])

def clearRespStrings (r : ClearResp) : List String := [r.message]

def analyzeRespStrings : AnalyzeResult → List String
  | .ok a => [a]
  | .serverError e => [e]

/-- Strings of the stored collections that handlers may legitimately echo
into a response: every username and email, every history text and
analysis. Stored password fields are deliberately not in this list. -/
def publicUserStrings (db : DB) : List String :=
  db.users.flatMap (fun u => [u.username, u.email])

def historyStrings (db : DB) : List String :=
  db.history.flatMap (fun e => [String.mk e.text, e.analysis])

/-- Every fixed message literal any handler ever puts in a response. -/
def opLiterals : List String :=
  ["User created successfully", "Login successful",
   "Username sent to your email", "Password reset instructions sent to your email",
   "Search history cleared", "Failed to analyze text",
   "User with this email or username already exists",
   "Invalid username or password", "No account found with this email",
   "No account found with this username and email combination",
   "Access token required", "Invalid or expired token"]

/-- Uniqueness invariant the spec states for the credential store. -/
def usersUnique (db : DB) : Prop :=
  db.users.Pairwise (fun a b => a.username ≠ b.username ∧ a.email ≠ b.email)

/-! Concrete example values used by the witness theorems. -/

/-- An empty database. -/
def dbEx : DB := { users := [], history := [], nextId := 0 }

/-- A concrete stand-in for the bcrypt hash in witnesses. -/
def hashF : String → String := fun s => "h" ++ s

theorem hashF_ne : ∀ s, hashF s ≠ s := by
  intro s h
  have hlen := congrArg String.length h
  rw [hashF, String.length_append, show "h".length = 1 from rfl] at hlen
  omega

/-- C5: a protected route answers 401 when the Authorization header
yields no token, 403 when jwt.verify rejects the token, and otherwise
runs its handler on the decoded claims; the three protected routes are
exactly such guarded handlers. -/
theorem c5_auth_middleware {R : Type} (inner : R → Nat)
    (handler : Claims → DB → DB × R) (now : Nat) (db : DB) :
    (protectedRoute handler AuthHeader.absent now db = (db, RouteResult.unauthorized) ∧
      protectedRoute handler AuthHeader.malformed now db = (db, RouteResult.unauthorized) ∧
      (RouteResult.unauthorized : RouteResult R).status inner = 401) ∧
    (∀ t e, verify t jwtSecret now = Except.error e →
      protectedRoute handler (AuthHeader.bearer t) now db = (db, RouteResult.forbidden) ∧
      (RouteResult.forbidden : RouteResult R).status inner = 403) ∧
    (∀ t c, verify t jwtSecret now = Except.ok c →
      protectedRoute handler (AuthHeader.bearer t) now db =
        ((handler c db).1, RouteResult.handled (handler c db).2)) ∧
    (∀ h d, getHistoryRoute h now d = protectedRoute getHistoryHandler h now d) ∧
    (∀ h d, clearHistoryRoute h now d = protectedRoute clearHistoryHandler h now d) ∧
    (∀ p s tx h d, analyzeRoute p s tx h now d =
      protectedRoute (fun c dd => analyze p s c dd now tx) h now d) := by
  refine ⟨⟨rfl, rfl, rfl⟩, ?_, ?_, fun h d => rfl, fun h d => rfl, fun p s tx h d => rfl⟩
  · intro t e he
    exact ⟨by simp [protectedRoute, authenticateToken, he], rfl⟩
  · intro t c hc
    simp [protectedRoute, authenticateToken, hc]

theorem c5_auth_middleware_witness :
    verify (sign ⟨1, none⟩ jwtSecret oneHour 0) jwtSecret 5000 = Except.error VerifyErr.expired ∧
    protectedRoute getHistoryHandler
      (AuthHeader.bearer (sign ⟨1, none⟩ jwtSecret oneHour 0)) 5000 dbEx =
      (dbEx, RouteResult.forbidden) :=
  ⟨by simp [verify, sign, oneHour],
   ((c5_auth_middleware (fun _ => 200) getHistoryHandler 5000 dbEx).2.1
      (sign ⟨1, none⟩ jwtSecret oneHour 0) VerifyErr.expired
      (by simp [verify, sign, oneHour])).1⟩

/-- C7: a successful analyze call appends exactly one history entry whose
text is text.substring(0, 500): the whole text when it has at most 500
characters, its first 500 characters otherwise. -/
theorem c7_history_text_truncated (a : String) (c : Claims) (db : DB)
    (now : Nat) (text : List Char) :
    ∃ e, (analyze (Except.ok a) (Except.ok ()) c db now text).1.history = db.history ++ [e] ∧
      e.text = text.take 500 ∧
      (text.length ≤ 500 → e.text = text) ∧
      (500 < text.length → e.text.length = 500) := by
  refine ⟨_, rfl, rfl, ?_, ?_⟩
  · intro hle
    exact List.take_of_length_le hle
  · intro hlt
    simp [List.length_take, Nat.min_eq_left (Nat.le_of_lt hlt)]

theorem c7_history_text_truncated_witness :
    ∃ e, (analyze (Except.ok "ok") (Except.ok ()) ⟨1, none⟩ dbEx 0
            (List.replicate 600 (Char.ofNat 97))).1.history = dbEx.history ++ [e] ∧
      e.text = (List.replicate 600 (Char.ofNat 97)).take 500 ∧
      ((List.replicate 600 (Char.ofNat 97)).length ≤ 500 →
        e.text = List.replicate 600 (Char.ofNat 97)) ∧
      (500 < (List.replicate 600 (Char.ofNat 97)).length → e.text.length = 500) :=
  c7_history_text_truncated "ok" ⟨1, none⟩ dbEx 0 (List.replicate 600 (Char.ofNat 97))

/-- C9: analyze responds 200 with the provider output unmodified and the
history entry appended when every awaited call succeeds, and 500 with the
generic error message when the provider call or the history save fails,
leaving the store unchanged. -/
theorem c9_analyze_error_boundary (c : Claims) (db : DB) (now : Nat) (text : List Char) :
    (∀ a, analyze (Except.ok a) (Except.ok ()) c db now text =
        ({ db with history := db.history ++
            [{ userId := c.userId, text := text.take 500, analysis := a, createdAt := now }] },
          AnalyzeResult.ok a) ∧
      analyzeRespStrings (AnalyzeResult.ok a) = [a] ∧
      (AnalyzeResult.ok a).status = 200) ∧
    (∀ sv, analyze (Except.error ()) sv c db now text =
      (db, AnalyzeResult.serverError "Failed to analyze text")) ∧
    (∀ a, analyze (Except.ok a) (Except.error ()) c db now text =
      (db, AnalyzeResult.serverError "Failed to analyze text")) ∧
    (AnalyzeResult.serverError "Failed to analyze text").status = 500 :=
  ⟨fun _ => ⟨rfl, rfl, rfl⟩, fun _ => rfl, fun _ => rfl, rfl⟩

/-- C1: signup against a store already holding a user with the same email
or username answers 400 Conflict and leaves the store untouched, and the
signup operation preserves the invariant that no two stored users share a
username or share an email. -/
theorem c1_signup_conflict_unique (hashFn : String → String) (now : Nat)
    (db : DB) (username email password : String) :
    ((∃ u, u ∈ db.users ∧ (u.email = email ∨ u.username = username)) →
      signup hashFn now db username email password =
        (db, SignupResult.conflict "User with this email or username already exists") ∧
      (signup hashFn now db username email password).2.status = 400) ∧
    (usersUnique db → usersUnique (signup hashFn now db username email password).1) := by
  constructor
  · rintro ⟨u, hu, hmatch⟩
    cases h : findByEmailOrUsername db email username with
    | none =>
      rw [findByEmailOrUsername, List.find?_eq_none] at h
      have := h u hu
      simp only [Bool.or_eq_true, beq_iff_eq, not_or] at this
      rcases hmatch with he | hn
      · exact absurd he this.1
      · exact absurd hn this.2
    | some v =>
      exact ⟨by simp [signup, h], by simp [signup, h, SignupResult.status]⟩
  · intro huniq
    cases h : findByEmailOrUsername db email username with
    | some v => simpa [signup, h] using huniq
    | none =>
      have h' := h
      rw [findByEmailOrUsername, List.find?_eq_none] at h'
      simp only [signup, h]
      rw [usersUnique] at huniq ⊢
      simp only [List.pairwise_append, List.pairwise_singleton, List.mem_singleton]
      refine ⟨huniq, trivial, ?_⟩
      intro a ha b hb
      subst hb
      have := h' a ha
      simp only [Bool.or_eq_true, beq_iff_eq, not_or] at this
      exact ⟨this.2, this.1⟩

theorem c1_signup_conflict_unique_witness :
    (∃ u, u ∈ (DB.mk [⟨0, "al", "al@x.com", "hpw", 0⟩] [] 1).users ∧
      (u.email = "al@x.com" ∨ u.username = "bob")) ∧
    signup hashF 3 (DB.mk [⟨0, "al", "al@x.com", "hpw", 0⟩] [] 1) "bob" "al@x.com" "pw2" =
      (DB.mk [⟨0, "al", "al@x.com", "hpw", 0⟩] [] 1,
        SignupResult.conflict "User with this email or username already exists") :=
  ⟨⟨⟨0, "al", "al@x.com", "hpw", 0⟩, by simp, Or.inl rfl⟩,
   ((c1_signup_conflict_unique hashF 3 (DB.mk [⟨0, "al", "al@x.com", "hpw", 0⟩] [] 1)
      "bob" "al@x.com" "pw2").1
      ⟨⟨0, "al", "al@x.com", "hpw", 0⟩, by simp, Or.inl rfl⟩).1⟩

/-- C2: login succeeds only when the bcrypt comparison of the submitted
password against the stored hash succeeds; whenever the looked-up user
has a non-matching hash the response is the 400 invalid-credentials
message, which carries no token. -/
theorem c2_login_wrong_password (hashFn : String → String) (now : Nat)
    (db : DB) (identifier password : String) :
    (∀ u, findByUsernameOrEmail db identifier = some u → hashFn password ≠ u.password →
      login hashFn now db identifier password =
        LoginResult.invalid "Invalid username or password" ∧
      (login hashFn now db identifier password).status = 400) ∧
    (∀ r, login hashFn now db identifier password = LoginResult.ok r →
      ∃ u, findByUsernameOrEmail db identifier = some u ∧
        hashFn password = u.password ∧ r.userId = u.id ∧
        r.token.claims.userId = u.id) := by
  constructor
  · intro u hu hne
    have hb : (hashFn password == u.password) = false := by
      simp [hne]
    refine ⟨by simp [login, hu, hb], by simp [login, hu, hb, LoginResult.status]⟩
  · intro r hr
    cases h : findByUsernameOrEmail db identifier with
    | none => simp [login, h] at hr
    | some u =>
      simp only [login, h] at hr
      cases hcmp : (hashFn password == u.password) with
      | false => rw [hcmp] at hr; simp at hr
      | true =>
        rw [hcmp] at hr
        rw [if_pos rfl] at hr
        cases hr
        exact ⟨u, rfl, by simpa using hcmp, rfl, rfl⟩

theorem c2_login_wrong_password_witness :
    findByUsernameOrEmail (DB.mk [⟨0, "al", "al@x.com", "hpw", 0⟩] [] 1) "al" =
      some ⟨0, "al", "al@x.com", "hpw", 0⟩ ∧
    hashF "wrong" ≠ "hpw" ∧
    login hashF 3 (DB.mk [⟨0, "al", "al@x.com", "hpw", 0⟩] [] 1) "al" "wrong" =
      LoginResult.invalid "Invalid username or password" :=
  ⟨by decide, by decide,
   ((c2_login_wrong_password hashF 3 (DB.mk [⟨0, "al", "al@x.com", "hpw", 0⟩] [] 1)
      "al" "wrong").1 ⟨0, "al", "al@x.com", "hpw", 0⟩ (by decide) (by decide)).1⟩

/-- C3: a successful signup stores a user record and answers with a token
that, verified with the same secret at any instant before its 7-day
expiry, decodes to claims whose userId is the stored record id. -/
theorem c3_signup_token_roundtrip (hashFn : String → String) (now : Nat) (db : DB)
    (username email password : String) (db' : DB) (resp : AuthSuccess)
    (hsign : signup hashFn now db username email password = (db', SignupResult.ok resp))
    (t : Nat) (ht : t < now + sevenDays) :
    ∃ u, u ∈ db'.users ∧ u.id = resp.userId ∧
      verify resp.token jwtSecret t =
        Except.ok { userId := u.id, username := some u.username } := by
  unfold signup at hsign
  cases h : findByEmailOrUsername db email username with
  | some v => rw [h] at hsign; simp at hsign
  | none =>
    rw [h] at hsign
    simp only [Prod.mk.injEq, SignupResult.ok.injEq] at hsign
    obtain ⟨hdb, hresp⟩ := hsign
    subst hdb
    refine ⟨{ id := db.nextId, username := username, email := email,
              password := hashFn password, createdAt := now }, by simp, ?_, ?_⟩
    · rw [← hresp]
    · rw [← hresp]
      simp [verify, sign, ht]

theorem c3_signup_token_roundtrip_witness :
    signup hashF 0 dbEx "al" "al@x.com" "pw" =
      (DB.mk [⟨0, "al", "al@x.com", "hpw", 0⟩] [] 1,
        SignupResult.ok ⟨"User created successfully", 0, "al", "al@x.com", 0,
          ⟨⟨0, some "al"⟩, jwtSecret, sevenDays⟩⟩) ∧
    (5 : Nat) < 0 + sevenDays ∧
    ∃ u, u ∈ (DB.mk [⟨0, "al", "al@x.com", "hpw", 0⟩] [] 1).users ∧
      u.id = (AuthSuccess.mk "User created successfully" 0 "al" "al@x.com" 0
        ⟨⟨0, some "al"⟩, jwtSecret, sevenDays⟩).userId ∧
      verify (AuthSuccess.mk "User created successfully" 0 "al" "al@x.com" 0
          ⟨⟨0, some "al"⟩, jwtSecret, sevenDays⟩).token jwtSecret 5 =
        Except.ok { userId := u.id, username := some u.username } :=
  ⟨by decide, by decide,
   c3_signup_token_roundtrip hashF 0 dbEx "al" "al@x.com" "pw"
     (DB.mk [⟨0, "al", "al@x.com", "hpw", 0⟩] [] 1)
     ⟨"User created successfully", 0, "al", "al@x.com", 0,
       ⟨⟨0, some "al"⟩, jwtSecret, sevenDays⟩⟩
     (by decide) 5 (by decide)⟩

/-- C8: deleteMany removes exactly the entries owned by the given user
and reports their number; afterwards listRecent for that user is empty,
every other user keeps exactly the same entries, and the user collection
is untouched; the DELETE handler is this operation plus a fixed message. -/
theorem c8_clear_history (db : DB) (uid : Nat) :
    (deleteMany db uid).2 = (db.history.filter (fun e => e.userId == uid)).length ∧
    (∀ e ∈ (deleteMany db uid).1.history, e.userId ≠ uid) ∧
    (∀ e ∈ db.history, e.userId ≠ uid → e ∈ (deleteMany db uid).1.history) ∧
    listRecent (deleteMany db uid).1 uid = [] ∧
    (∀ v, v ≠ uid → (deleteMany db uid).1.history.filter (fun e => e.userId == v) =
      db.history.filter (fun e => e.userId == v)) ∧
    (deleteMany db uid).1.users = db.users ∧
    (∀ c : Claims, clearHistoryHandler c db =
      ((deleteMany db c.userId).1, ⟨"Search history cleared"⟩)) := by
  refine ⟨rfl, ?_, ?_, ?_, ?_, rfl, fun c => rfl⟩
  · intro e he
    simp only [deleteMany, List.mem_filter, Bool.not_eq_eq_eq_not, Bool.not_true,
      beq_eq_false_iff_ne] at he
    exact he.2
  · intro e he hne
    simp only [deleteMany, List.mem_filter]
    exact ⟨he, by simp [hne]⟩
  · have hflt : (deleteMany db uid).1.history.filter (fun e => e.userId == uid) = [] := by
      simp only [deleteMany, List.filter_filter]
      rw [List.filter_eq_nil_iff]
      intro a _
      simp
    rw [listRecent, hflt]
    rfl
  · intro v hv
    simp only [deleteMany, List.filter_filter]
    apply List.filter_congr
    intro a _
    cases hav : (a.userId == v) with
    | false => simp
    | true =>
      have : a.userId = v := by simpa using hav
      simp [this, hv]

/-- A two-user history store used by witnesses. -/
def dbH : DB :=
  { users := [], history := [⟨1, ['a'], "x", 0⟩, ⟨2, ['b'], "y", 1⟩], nextId := 0 }

theorem c8_clear_history_witness :
    (2 : Nat) ≠ 1 ∧
    (deleteMany dbH 1).1.history.filter (fun e => e.userId == 2) =
      dbH.history.filter (fun e => e.userId == 2) :=
  ⟨by decide, (c8_clear_history dbH 1).2.2.2.2.1 2 (by decide)⟩

/-- The analyze handler reads only the userId field of req.user. -/
theorem analyze_userId_only (p : Except Unit String) (s : Except Unit Unit)
    (c1 c2 : Claims) (h : c1.userId = c2.userId) (db : DB) (now : Nat) (tx : List Char) :
    analyze p s c1 db now tx = analyze p s c2 db now tx := by
  cases p <;> cases s <;> simp [analyze, h]

/-- C10: the 1-hour reset token issued by forgot-password is signed over
only the user id with the same secret, and within its lifetime the
authentication middleware accepts it, so the protected history and
analyze routes behave exactly as they do under a 7-day session token of
the same user. -/
theorem c10_reset_token_grants_access (db : DB) (now : Nat)
    (username email : String) (u : UserRec)
    (hfind : findByUsernameAndEmail db username email = some u)
    (t : Nat) (ht : t < now + oneHour) :
    forgotPassword now db username email =
      ForgotPasswordResult.ok "Password reset instructions sent to your email"
        (sign { userId := u.id, username := none } jwtSecret oneHour now) ∧
    (sign { userId := u.id, username := none } jwtSecret oneHour now).secret = jwtSecret ∧
    (sign { userId := u.id, username := none } jwtSecret oneHour now).expiresAt =
      now + oneHour ∧
    authenticateToken
      (AuthHeader.bearer (sign { userId := u.id, username := none } jwtSecret oneHour now)) t =
      AuthCheck.ok { userId := u.id, username := none } ∧
    (∀ db2, getHistoryRoute
        (AuthHeader.bearer (sign { userId := u.id, username := none } jwtSecret oneHour now))
        t db2 = (db2, RouteResult.handled { history := listRecent db2 u.id })) ∧
    (∀ db2 now2, t < now2 + sevenDays →
      getHistoryRoute
        (AuthHeader.bearer (sign { userId := u.id, username := none } jwtSecret oneHour now))
        t db2 =
      getHistoryRoute
        (AuthHeader.bearer
          (sign { userId := u.id, username := some u.username } jwtSecret sevenDays now2))
        t db2) ∧
    (∀ p s tx db2 now2, t < now2 + sevenDays →
      analyzeRoute p s tx
        (AuthHeader.bearer (sign { userId := u.id, username := none } jwtSecret oneHour now))
        t db2 =
      analyzeRoute p s tx
        (AuthHeader.bearer
          (sign { userId := u.id, username := some u.username } jwtSecret sevenDays now2))
        t db2) := by
  have hauth : authenticateToken
      (AuthHeader.bearer (sign { userId := u.id, username := none } jwtSecret oneHour now)) t =
      AuthCheck.ok { userId := u.id, username := none } := by
    simp [authenticateToken, verify, sign, ht]
  have hauth2 : ∀ now2, t < now2 + sevenDays →
      authenticateToken
        (AuthHeader.bearer
          (sign { userId := u.id, username := some u.username } jwtSecret sevenDays now2)) t =
        AuthCheck.ok { userId := u.id, username := some u.username } := by
    intro now2 ht2
    simp [authenticateToken, verify, sign, ht2]
  refine ⟨by simp [forgotPassword, hfind], rfl, rfl, hauth, ?_, ?_, ?_⟩
  · intro db2
    simp [getHistoryRoute, protectedRoute, hauth, getHistoryHandler]
  · intro db2 now2 ht2
    simp [getHistoryRoute, protectedRoute, hauth, hauth2 now2 ht2, getHistoryHandler]
  · intro p s tx db2 now2 ht2
    simp only [analyzeRoute, protectedRoute, hauth, hauth2 now2 ht2]
    rw [analyze_userId_only p s ⟨u.id, none⟩ ⟨u.id, some u.username⟩ rfl]

theorem c10_reset_token_grants_access_witness :
    findByUsernameAndEmail (DB.mk [⟨0, "al", "al@x.com", "hpw", 0⟩] [] 1) "al" "al@x.com" =
      some ⟨0, "al", "al@x.com", "hpw", 0⟩ ∧
    (10 : Nat) < 0 + oneHour ∧
    forgotPassword 0 (DB.mk [⟨0, "al", "al@x.com", "hpw", 0⟩] [] 1) "al" "al@x.com" =
      ForgotPasswordResult.ok "Password reset instructions sent to your email"
        (sign { userId := 0, username := none } jwtSecret oneHour 0) :=
  ⟨by decide, by decide,
   (c10_reset_token_grants_access (DB.mk [⟨0, "al", "al@x.com", "hpw", 0⟩] [] 1) 0
     "al" "al@x.com" ⟨0, "al", "al@x.com", "hpw", 0⟩ (by decide) 10 (by decide)).1⟩

/-- One analyze request in a sequence: the submitted text, the provider
output and the request instant (the createdAt default). -/
structure AnalyzeReq where
  text : List Char
  analysis : String
  time : Nat
deriving DecidableEq, Repr

/-- The history entry a successful analyze call stores for user uid. -/
def entryOf (uid : Nat) (r : AnalyzeReq) : HistoryEntry :=
  { userId := uid, text := r.text.take 500, analysis := r.analysis, createdAt := r.time }

/-- N successive successful analyze calls by the same user. -/
def runAnalyses (uid : Nat) (reqs : List AnalyzeReq) (db : DB) : DB :=
  reqs.foldl
    (fun d r =>
      (analyze (Except.ok r.analysis) (Except.ok ()) ⟨uid, none⟩ d r.time r.text).1) db

theorem runAnalyses_history (uid : Nat) (reqs : List AnalyzeReq) (db : DB) :
    (runAnalyses uid reqs db).history = db.history ++ reqs.map (entryOf uid) := by
  induction reqs generalizing db with
  | nil => simp [runAnalyses]
  | cons r rs ih =>
    have hstep : runAnalyses uid (r :: rs) db =
        runAnalyses uid rs
          ((analyze (Except.ok r.analysis) (Except.ok ()) ⟨uid, none⟩ db r.time r.text).1) := rfl
    rw [hstep, ih]
    simp [analyze, entryOf]

theorem runAnalyses_filter (uid : Nat) (reqs : List AnalyzeReq) (db : DB)
    (hempty : db.history.filter (fun e => e.userId == uid) = []) :
    (runAnalyses uid reqs db).history.filter (fun e => e.userId == uid) =
      reqs.map (entryOf uid) := by
  rw [runAnalyses_history, List.filter_append, hempty, List.nil_append]
  rw [List.filter_eq_self.mpr]
  intro a ha
  simp only [List.mem_map] at ha
  obtain ⟨r, _, rfl⟩ := ha
  simp [entryOf]

/-- C6: starting from a store with no entries for the user, after N
successful analyze calls at strictly increasing instants, the history
listing holds exactly min(N, 50) entries, each owned by that user, in
strictly descending creation-time order. -/
theorem c6_listRecent_newest_first (uid : Nat) (db : DB) (reqs : List AnalyzeReq)
    (hempty : db.history.filter (fun e => e.userId == uid) = [])
    (hmono : reqs.Pairwise (fun a b => a.time < b.time)) :
    (listRecent (runAnalyses uid reqs db) uid).length = min reqs.length 50 ∧
    (∀ e ∈ listRecent (runAnalyses uid reqs db) uid, e.userId = uid) ∧
    (listRecent (runAnalyses uid reqs db) uid).Pairwise
      (fun a b => b.createdAt < a.createdAt) := by
  have hfl := runAnalyses_filter uid reqs db hempty
  have hperm : List.Perm (List.insertionSort byNewest (reqs.map (entryOf uid)))
      (reqs.map (entryOf uid)) :=
    List.perm_insertionSort byNewest _
  have hsorted : List.Sorted byNewest (List.insertionSort byNewest (reqs.map (entryOf uid))) :=
    List.sorted_insertionSort byNewest _
  have hne : (reqs.map (entryOf uid)).Pairwise (fun a b => a.createdAt ≠ b.createdAt) := by
    rw [List.pairwise_map]
    exact hmono.imp (fun h => Nat.ne_of_lt h)
  have hneSorted : (List.insertionSort byNewest (reqs.map (entryOf uid))).Pairwise
      (fun a b => a.createdAt ≠ b.createdAt) :=
    (List.Perm.pairwise_iff (fun h => Ne.symm h) hperm).mpr hne
  have hstrict : (List.insertionSort byNewest (reqs.map (entryOf uid))).Pairwise
      (fun a b => b.createdAt < a.createdAt) :=
    (hsorted.and hneSorted).imp (fun h => Nat.lt_of_le_of_ne h.1 (Ne.symm h.2))
  refine ⟨?_, ?_, ?_⟩
  · simp only [listRecent, hfl]
    rw [List.length_take, List.Perm.length_eq hperm, List.length_map, Nat.min_comm]
  · intro e he
    simp only [listRecent, hfl] at he
    have h1 := List.mem_of_mem_take he
    have h2 := (List.Perm.mem_iff hperm).mp h1
    simp only [List.mem_map] at h2
    obtain ⟨r, _, rfl⟩ := h2
    rfl
  · simp only [listRecent, hfl]
    exact List.Pairwise.sublist (List.take_sublist _ _) hstrict

/-- Two analyze requests at instants 0 and 1, for the witness. -/
def reqsEx : List AnalyzeReq := [⟨['a'], "x", 0⟩, ⟨['b'], "y", 1⟩]

theorem c6_listRecent_newest_first_witness :
    dbEx.history.filter (fun e => e.userId == 7) = [] ∧
    reqsEx.Pairwise (fun a b => a.time < b.time) ∧
    ((listRecent (runAnalyses 7 reqsEx dbEx) 7).length = min reqsEx.length 50 ∧
      (∀ e ∈ listRecent (runAnalyses 7 reqsEx dbEx) 7, e.userId = 7) ∧
      (listRecent (runAnalyses 7 reqsEx dbEx) 7).Pairwise
        (fun a b => b.createdAt < a.createdAt)) :=
  ⟨by decide, by decide, c6_listRecent_newest_first 7 dbEx reqsEx (by decide) (by decide)⟩

/-- Strings that handlers may draw response bodies from, relative to a
store and the signup inputs: fixed literals, the submitted username and
email, and the public strings already stored. -/
def exposedStrings (db : DB) (username email : String) : List String :=
  opLiterals ++ username :: email :: (publicUserStrings db ++ historyStrings db)

theorem neOfNotMem {α} {p s : α} {l : List α} (h : p ∉ l) (hs : s ∈ l) : p ≠ s :=
  fun he => h (he ▸ hs)

theorem username_mem_pub {db : DB} {u : UserRec} (hu : u ∈ db.users) :
    u.username ∈ publicUserStrings db :=
  List.mem_flatMap.mpr ⟨u, hu, by simp⟩

theorem email_mem_pub {db : DB} {u : UserRec} (hu : u ∈ db.users) :
    u.email ∈ publicUserStrings db :=
  List.mem_flatMap.mpr ⟨u, hu, by simp⟩

/-- Every string a login response can carry: the fixed messages or the
username and email of a stored user. Stored password hashes are never
echoed. -/
theorem login_strings (hashFn : String → String) (t : Nat) (db : DB) (idf pw : String) :
    loginRespStrings (login hashFn t db idf pw) = ["Invalid username or password"] ∨
    ∃ u, u ∈ db.users ∧ loginRespStrings (login hashFn t db idf pw) =
      ["Login successful", u.username, u.email, u.username] := by
  cases h : findByUsernameOrEmail db idf with
  | none => exact Or.inl (by simp [login, h, loginRespStrings])
  | some u =>
    cases hc : (hashFn pw == u.password) with
    | false => exact Or.inl (by simp [login, h, hc, loginRespStrings])
    | true =>
      refine Or.inr ⟨u, List.mem_of_find?_eq_some h, ?_⟩
      simp [login, h, hc, loginRespStrings, authSuccessStrings, claimsStrings, sign]

theorem forgotUsername_strings (db : DB) (em : String) :
    forgotUsernameRespStrings (forgotUsername db em) = ["No account found with this email"] ∨
    forgotUsernameRespStrings (forgotUsername db em) = ["Username sent to your email"] := by
  cases h : findByEmail db em with
  | none => exact Or.inl (by simp [forgotUsername, h, forgotUsernameRespStrings])
  | some u => exact Or.inr (by simp [forgotUsername, h, forgotUsernameRespStrings])

theorem forgotPassword_strings (t : Nat) (db : DB) (un em : String) :
    forgotPasswordRespStrings (forgotPassword t db un em) =
      ["No account found with this username and email combination"] ∨
    forgotPasswordRespStrings (forgotPassword t db un em) =
      ["Password reset instructions sent to your email"] := by
  cases h : findByUsernameAndEmail db un em with
  | none => exact Or.inl (by simp [forgotPassword, h, forgotPasswordRespStrings])
  | some u => exact Or.inr (by simp [forgotPassword, h, forgotPasswordRespStrings])

theorem listRecent_mem_history {db : DB} {uid : Nat} {e : HistoryEntry}
    (he : e ∈ listRecent db uid) : e ∈ db.history := by
  simp only [listRecent] at he
  have h1 := List.mem_of_mem_take he
  have h2 := (List.Perm.mem_iff (List.perm_insertionSort byNewest _)).mp h1
  exact List.mem_of_mem_filter h2

theorem historyResp_strings_sub (db : DB) (uid : Nat) :
    ∀ s ∈ historyRespStrings (getHistoryHandler ⟨uid, none⟩ db).2, s ∈ historyStrings db := by
  intro s hs
  simp only [historyRespStrings, getHistoryHandler, List.mem_flatMap] at hs
  obtain ⟨e, he, hse⟩ := hs
  exact List.mem_flatMap.mpr ⟨e, listRecent_mem_history he, hse⟩

/-- C4: after a successful signup the stored record holds the one-way
hash, never the plaintext, and no response body of signup, login,
forgot-username, forgot-password, history or analyze carries the
plaintext password or the stored hash, provided those two strings do not
coincide with data that is legitimately public (usernames, emails,
stored texts and analyses, fixed messages, provider output). -/
theorem c4_password_never_exposed
    (hashFn : String → String) (hOne : ∀ s, hashFn s ≠ s)
    (now : Nat) (db : DB) (username email password : String)
    (db' : DB) (resp : AuthSuccess)
    (hsign : signup hashFn now db username email password = (db', SignupResult.ok resp))
    (hp : password ∉ exposedStrings db username email)
    (hh : hashFn password ∉ exposedStrings db username email) :
    (∃ u, u ∈ db'.users ∧ u.id = resp.userId ∧
      u.password = hashFn password ∧ u.password ≠ password) ∧
    (password ∉ signupRespStrings (SignupResult.ok resp) ∧
      hashFn password ∉ signupRespStrings (SignupResult.ok resp)) ∧
    (∀ idf pw t, password ∉ loginRespStrings (login hashFn t db' idf pw) ∧
      hashFn password ∉ loginRespStrings (login hashFn t db' idf pw)) ∧
    (∀ em, password ∉ forgotUsernameRespStrings (forgotUsername db' em) ∧
      hashFn password ∉ forgotUsernameRespStrings (forgotUsername db' em)) ∧
    (∀ un em t, password ∉ forgotPasswordRespStrings (forgotPassword t db' un em) ∧
      hashFn password ∉ forgotPasswordRespStrings (forgotPassword t db' un em)) ∧
    (∀ uid, password ∉ historyRespStrings (getHistoryHandler ⟨uid, none⟩ db').2 ∧
      hashFn password ∉ historyRespStrings (getHistoryHandler ⟨uid, none⟩ db').2) ∧
    (∀ uid, password ∉ clearRespStrings (clearHistoryHandler ⟨uid, none⟩ db').2 ∧
      hashFn password ∉ clearRespStrings (clearHistoryHandler ⟨uid, none⟩ db').2) ∧
    (∀ pr sv c t tx, (∀ a, pr = Except.ok a → password ≠ a ∧ hashFn password ≠ a) →
      password ∉ analyzeRespStrings (analyze pr sv c db' t tx).2 ∧
      hashFn password ∉ analyzeRespStrings (analyze pr sv c db' t tx).2) := by
  unfold signup at hsign
  cases h : findByEmailOrUsername db email username with
  | some v => rw [h] at hsign; simp at hsign
  | none =>
    rw [h] at hsign
    simp only [Prod.mk.injEq, SignupResult.ok.injEq] at hsign
    obtain ⟨hdb, hresp⟩ := hsign
    subst hdb
    subst hresp
    simp only [exposedStrings, List.mem_append, List.mem_cons, not_or] at hp hh
    obtain ⟨hp1, hp2, hp3, hp4, hp5⟩ := hp
    obtain ⟨hh1, hh2, hh3, hh4, hh5⟩ := hh
    have pubne : ∀ u ∈ db.users, password ≠ u.username ∧ password ≠ u.email := by
      intro u hu
      exact ⟨neOfNotMem hp4 (username_mem_pub hu), neOfNotMem hp4 (email_mem_pub hu)⟩
    have hpubne : ∀ u ∈ db.users, hashFn password ≠ u.username ∧ hashFn password ≠ u.email := by
      intro u hu
      exact ⟨neOfNotMem hh4 (username_mem_pub hu), neOfNotMem hh4 (email_mem_pub hu)⟩
    refine ⟨?_, ?_, ?_, ?_, ?_, ?_, ?_, ?_⟩
    · exact ⟨{ id := db.nextId, username := username, email := email, password := hashFn password, createdAt := now }, by simp, rfl, rfl, hOne password⟩
    · constructor
      · intro hx
        simp only [signupRespStrings, authSuccessStrings, claimsStrings, sign,
          List.mem_cons, List.not_mem_nil, or_false] at hx
        rcases hx with hx | hx | hx | hx
        · exact neOfNotMem hp1 (by simp [opLiterals]) hx
        · exact hp2 hx
        · exact hp3 hx
        · exact hp2 hx
      · intro hx
        simp only [signupRespStrings, authSuccessStrings, claimsStrings, sign,
          List.mem_cons, List.not_mem_nil, or_false] at hx
        rcases hx with hx | hx | hx | hx
        · exact neOfNotMem hh1 (by simp [opLiterals]) hx
        · exact hh2 hx
        · exact hh3 hx
        · exact hh2 hx
    · intro idf pw t
      rcases login_strings hashFn t _ idf pw with hl | ⟨u, hu, hl⟩
      · rw [hl]
        constructor
        · simpa using neOfNotMem hp1 (by simp [opLiterals])
        · simpa using neOfNotMem hh1 (by simp [opLiterals])
      · rw [hl]
        have hu2 : u ∈ db.users ++
            [{ id := db.nextId, username := username, email := email,
               password := hashFn password, createdAt := now }] := hu
        rcases List.mem_append.mp hu2 with hold | hnew
        · constructor
          · simp only [List.mem_cons, List.not_mem_nil, or_false, not_or]
            exact ⟨neOfNotMem hp1 (by simp [opLiterals]), (pubne u hold).1,
              (pubne u hold).2, (pubne u hold).1⟩
          · simp only [List.mem_cons, List.not_mem_nil, or_false, not_or]
            exact ⟨neOfNotMem hh1 (by simp [opLiterals]), (hpubne u hold).1,
              (hpubne u hold).2, (hpubne u hold).1⟩
        · have hu0 := List.mem_singleton.mp hnew
          subst hu0
          constructor
          · simp only [List.mem_cons, List.not_mem_nil, or_false, not_or]
            exact ⟨neOfNotMem hp1 (by simp [opLiterals]), hp2, hp3, hp2⟩
          · simp only [List.mem_cons, List.not_mem_nil, or_false, not_or]
            exact ⟨neOfNotMem hh1 (by simp [opLiterals]), hh2, hh3, hh2⟩
    · intro em
      rcases forgotUsername_strings _ em with hl | hl <;> rw [hl] <;> constructor
      · simpa using neOfNotMem hp1 (by simp [opLiterals])
      · simpa using neOfNotMem hh1 (by simp [opLiterals])
      · simpa using neOfNotMem hp1 (by simp [opLiterals])
      · simpa using neOfNotMem hh1 (by simp [opLiterals])
    · intro un em t
      rcases forgotPassword_strings t _ un em with hl | hl <;> rw [hl] <;> constructor
      · simpa using neOfNotMem hp1 (by simp [opLiterals])
      · simpa using neOfNotMem hh1 (by simp [opLiterals])
      · simpa using neOfNotMem hp1 (by simp [opLiterals])
      · simpa using neOfNotMem hh1 (by simp [opLiterals])
    · intro uid
      constructor
      · intro hx
        exact hp5 (historyResp_strings_sub _ uid password hx)
      · intro hx
        exact hh5 (historyResp_strings_sub _ uid (hashFn password) hx)
    · intro uid
      constructor
      · simpa [clearHistoryHandler, clearRespStrings] using
          neOfNotMem hp1 (by simp [opLiterals])
      · simpa [clearHistoryHandler, clearRespStrings] using
          neOfNotMem hh1 (by simp [opLiterals])
    · intro pr sv c t tx hok
      cases pr with
      | error e =>
        constructor
        · simpa [analyze, analyzeRespStrings] using
            neOfNotMem hp1 (by simp [opLiterals])
        · simpa [analyze, analyzeRespStrings] using
            neOfNotMem hh1 (by simp [opLiterals])
      | ok a =>
        cases sv with
        | error e =>
          constructor
          · simpa [analyze, analyzeRespStrings] using
              neOfNotMem hp1 (by simp [opLiterals])
          · simpa [analyze, analyzeRespStrings] using
              neOfNotMem hh1 (by simp [opLiterals])
        | ok _ =>
          constructor
          · simpa [analyze, analyzeRespStrings] using (hok a rfl).1
          · simpa [analyze, analyzeRespStrings] using (hok a rfl).2

theorem c4_password_never_exposed_witness :
    (∀ s, hashF s ≠ s) ∧
    signup hashF 0 dbEx "al" "al@x.com" "pw" =
      (DB.mk [⟨0, "al", "al@x.com", "hpw", 0⟩] [] 1,
        SignupResult.ok ⟨"User created successfully", 0, "al", "al@x.com", 0,
          ⟨⟨0, some "al"⟩, jwtSecret, sevenDays⟩⟩) ∧
    "pw" ∉ exposedStrings dbEx "al" "al@x.com" ∧
    hashF "pw" ∉ exposedStrings dbEx "al" "al@x.com" ∧
    ("pw" ∉ signupRespStrings (SignupResult.ok ⟨"User created successfully", 0, "al",
        "al@x.com", 0, ⟨⟨0, some "al"⟩, jwtSecret, sevenDays⟩⟩) ∧
      hashF "pw" ∉ signupRespStrings (SignupResult.ok ⟨"User created successfully", 0, "al",
        "al@x.com", 0, ⟨⟨0, some "al"⟩, jwtSecret, sevenDays⟩⟩)) :=
  ⟨hashF_ne, by decide, by decide, by decide,
   (c4_password_never_exposed hashF hashF_ne 0 dbEx "al" "al@x.com" "pw"
     (DB.mk [⟨0, "al", "al@x.com", "hpw", 0⟩] [] 1)
     ⟨"User created successfully", 0, "al", "al@x.com", 0,
       ⟨⟨0, some "al"⟩, jwtSecret, sevenDays⟩⟩
     (by decide) (by decide) (by decide)).2.1⟩

end Backend
